import Mathlib

/-!
Shallow embedding of the GameSystems-Portfolio Unreal gameplay subsystems
(level streaming, UI overlays, audio, cinematics) and proofs of the spec
claims about them.  Engine-owned objects (ULevelStreaming, audio
components, widgets, sequence players) are modelled by explicit records;
engine API requests issued by the code are recorded as traces; C++ floats
are modelled by rationals; TMap fields are modelled by association lists.
-/

/- ============================================================ -/
/- ATLDLevelStreamingManager (src/TLDLevelStreamingManager.cpp)  -/
/- ============================================================ -/

namespace TLDStream

/-- Chunk lifecycle states, from `ETLDChunkState` used by the manager. -/
inductive ETLDChunkState
  | Unloaded
  | Loading
  | LoadedHidden
  | Visible
deriving DecidableEq, Repr

/-- Engine-owned `ULevelStreaming` object, as polled by the manager:
`IsLevelLoaded()` and `IsLevelVisible()` results. -/
structure StreamingLevel where
  isLevelLoaded : Bool
  isLevelVisible : Bool
deriving DecidableEq, Repr

/-- A request issued to the engine streaming object
(`SetShouldBeLoaded` / `SetShouldBeVisible`). -/
inductive EngineCall
  | setShouldBeLoaded (b : Bool)
  | setShouldBeVisible (b : Bool)
deriving DecidableEq, Repr

/-- `FTLDChunkRecord`: per-chunk tracking record.  The cached
`ULevelStreaming*` pointer is modelled by an optional snapshot of the
engine object; `nullptr` is `none`.  (The record struct lives in the
header, which is not in src/; fields are those the .cpp reads/writes,
with `WarmUpSeconds` defaulting to 0.) -/
structure FTLDChunkRecord where
  levelName : String
  state : ETLDChunkState
  warmUpSeconds : ℚ
  streaming : Option StreamingLevel
deriving DecidableEq, Repr

/-- `Rec.Streaming` refreshed by `FindStreamingLevelByName` when null:
`if (!Rec.Streaming) Rec.Streaming = FindStreamingLevelByName(...)`.
`find` is the result the world lookup would return for this name. -/
def effStreaming (rec : FTLDChunkRecord) (find : Option StreamingLevel) :
    Option StreamingLevel :=
  match rec.streaming with
  | some s => some s
  | none => find

/-- `Rec.Streaming && Rec.Streaming->IsLevelLoaded()` on the cached pointer. -/
def streamingLoaded : Option StreamingLevel → Bool
  | some s => s.isLevelLoaded
  | none => false

/-- `ATLDLevelStreamingManager::ApplyLoad` (lines 445-482): returns the
updated record and the engine requests issued, in order. -/
def ApplyLoad (rec : FTLDChunkRecord) (find : Option StreamingLevel)
    (bMakeVisibleAfterLoad : Bool) (warmUpSeconds : ℚ) :
    FTLDChunkRecord × List EngineCall :=
  match effStreaming rec find with
  | none => ({ rec with streaming := none }, [])
  | some s =>
    let rec' := { rec with streaming := some s }
    if s.isLevelLoaded then
      -- CASE 1: already loaded, just handle visibility
      let bShowNow := bMakeVisibleAfterLoad && decide (warmUpSeconds ≤ 0)
      ({ rec' with
          state := if bShowNow then .Visible else .LoadedHidden,
          warmUpSeconds :=
            if bMakeVisibleAfterLoad && decide (warmUpSeconds > 0)
            then warmUpSeconds else 0 },
        [.setShouldBeVisible bShowNow])
    else
      -- CASE 2: start async load
      let bRequestVisibleNow := bMakeVisibleAfterLoad && decide (warmUpSeconds ≤ 0)
      ({ rec' with
          state := if bRequestVisibleNow then .Visible else .Loading,
          warmUpSeconds :=
            if bMakeVisibleAfterLoad then max 0 warmUpSeconds else 0 },
        [.setShouldBeLoaded true, .setShouldBeVisible bRequestVisibleNow])

/-- `ATLDLevelStreamingManager::ApplyUnload` (lines 495-516). -/
def ApplyUnload (rec : FTLDChunkRecord) (find : Option StreamingLevel) :
    FTLDChunkRecord × List EngineCall :=
  match effStreaming rec find with
  | none =>
    -- level doesn't exist, just mark as unloaded
    ({ rec with streaming := none, state := .Unloaded }, [])
  | some s =>
    -- hide first, then unload
    ({ rec with streaming := some s, state := .Unloaded, warmUpSeconds := 0 },
      [.setShouldBeVisible false, .setShouldBeLoaded false])

/-- `ATLDLevelStreamingManager::ApplyVisibility` (lines 529-557). -/
def ApplyVisibility (rec : FTLDChunkRecord) (find : Option StreamingLevel)
    (bVisible : Bool) : FTLDChunkRecord × List EngineCall :=
  match effStreaming rec find with
  | none => ({ rec with streaming := none }, [])
  | some s =>
    let rec' := { rec with streaming := some s }
    if !s.isLevelLoaded then
      -- prerequisite check: auto-load but keep hidden until loaded
      ({ rec' with state := .Loading },
        [.setShouldBeLoaded true, .setShouldBeVisible false])
    else
      ({ rec' with
          state := if bVisible then .Visible else .LoadedHidden,
          warmUpSeconds := 0 },
        [.setShouldBeVisible bVisible])

/-- `ATLDLevelStreamingManager::Tick` (lines 81-117), restricted to one
tracked record: transition 1 (Loading → LoadedHidden when the engine
reports loaded) then transition 2 (warm-up countdown, then
`ApplyVisibility(Rec, true)` when it reaches zero or below). -/
def Tick (rec : FTLDChunkRecord) (find : Option StreamingLevel) (dt : ℚ) :
    FTLDChunkRecord × List EngineCall :=
  let rec1 :=
    if rec.state = .Loading && streamingLoaded rec.streaming
    then { rec with state := .LoadedHidden }
    else rec
  if rec1.state = .LoadedHidden && decide (rec1.warmUpSeconds > 0) then
    let rec2 := { rec1 with warmUpSeconds := rec1.warmUpSeconds - dt }
    if rec2.warmUpSeconds ≤ 0 then ApplyVisibility rec2 find true
    else (rec2, [])
  else (rec1, [])

/-- Model of `TMap<FName, FTLDChunkRecord> ChunkRecords` as a partial
map (TMap keys are unique, so a function is a faithful model of
`Find`/`Add`). -/
abbrev ChunkRecords := String → Option FTLDChunkRecord

/-- `TMap::Add` semantics: replace the entry if present, else add it. -/
def storeRecord (records : ChunkRecords) (name : String)
    (rec : FTLDChunkRecord) : ChunkRecords :=
  fun n => if n = name then some rec else records n

/-- `ATLDLevelStreamingManager::GetOrAddRecord` (lines 417-431). -/
def GetOrAddRecord (records : ChunkRecords) (name : String)
    (find : Option StreamingLevel) : FTLDChunkRecord :=
  match records name with
  | some rec => rec
  | none => ⟨name, .Unloaded, 0, find⟩

/-- `ATLDLevelStreamingManager::UnloadChunkAsync` (lines 163-172):
an empty name (`IsNone`) is rejected, otherwise get-or-add the record
and `ApplyUnload`.  Returns updated map and issued engine requests. -/
def UnloadChunkAsync (records : ChunkRecords)
    (name : String) (find : Option StreamingLevel) :
    ChunkRecords × List EngineCall :=
  if name = "" then (records, [])
  else
    let p := ApplyUnload (GetOrAddRecord records name find) find
    (storeRecord records name p.1, p.2)

/-- `ULevelStreaming::IsLevelVisible` on a possibly-null pointer. -/
def streamingVisible : Option StreamingLevel → Bool
  | some s => s.isLevelVisible
  | none => false

/-- `ATLDLevelStreamingManager::IsChunkLoaded` (lines 207-221). -/
def IsChunkLoaded (records : ChunkRecords)
    (find : Option StreamingLevel) (name : String) : Bool :=
  match records name with
  | some rec =>
    decide (rec.state = .LoadedHidden) || decide (rec.state = .Visible)
  | none =>
    match find with
    | some sl => sl.isLevelLoaded
    | none => false

/-- `ATLDLevelStreamingManager::IsChunkVisible` (lines 234-248). -/
def IsChunkVisible (records : ChunkRecords)
    (find : Option StreamingLevel) (name : String) : Bool :=
  match records name with
  | some rec => decide (rec.state = .Visible)
  | none =>
    match find with
    | some sl => sl.isLevelVisible
    | none => false

/-- Position along the lifecycle chain Unloaded → Loading → LoadedHidden
→ Visible. -/
def chainIdx : ETLDChunkState → Nat
  | .Unloaded => 0
  | .Loading => 1
  | .LoadedHidden => 2
  | .Visible => 3

end TLDStream

namespace TLDUI

/-- `ETLDUIOverlay` widget categories named in the code/spec (HUD,
Pause, Wolf).  The enum lives in TLDUIShared.h, not in src/; the claims
only need distinguishable categories. -/
inductive ETLDUIOverlay
  | HUD
  | Pause
  | Wolf
deriving DecidableEq, Repr

/-- Widgets are modelled by identifiers. -/
abbrev Widget := Nat

/-- UI manager widget-tracking state.
`liveWidgets` models `TMap<ETLDUIOverlay, TWeakObjectPtr<UUserWidget>>`:
`none` = no map entry, `some none` = entry whose weak pointer is dead,
`some (some w)` = entry with a live widget.
`pooled` models `TMap<ETLDUIOverlay, TArray<TWeakObjectPtr<UUserWidget>>>`:
each pool entry is `none` when the weak pointer died. -/
structure UIState where
  liveWidgets : ETLDUIOverlay → Option (Option Widget)
  pooled : ETLDUIOverlay → Option (List (Option Widget))

/-- `LiveWidgets.FindRef(Overlay).Get()`: the live widget, if any. -/
def liveGet (st : UIState) (ov : ETLDUIOverlay) : Option Widget :=
  match st.liveWidgets ov with
  | some w => w
  | none => none

/-- The backwards pool scan of `CreateOrReuse` (lines 175-190) on the
reversed pool: dead weak pointers are removed until the first live
widget, which is taken out. -/
def scanPoolRev : List (Option Widget) → Option Widget × List (Option Widget)
  | [] => (none, [])
  | none :: t => scanPoolRev t
  | some w :: t => (some w, t)

/-- The first live widget the backwards pool scan would return. -/
def poolAlive (st : UIState) (ov : ETLDUIOverlay) : Option Widget :=
  match st.pooled ov with
  | some pl => (scanPoolRev pl.reverse).1
  | none => none

/-- The pool-reuse loop of `CreateOrReuse` (lines 175-190): scan the
overlay's pool backwards, dropping dead weak pointers; on the first live
widget, remove it from the pool and add it to `LiveWidgets`. -/
def poolTake (st : UIState) (ov : ETLDUIOverlay) : Option Widget × UIState :=
  match st.pooled ov with
  | some pl =>
    let p := scanPoolRev pl.reverse
    match p.1 with
    | some w =>
      (some w,
        { liveWidgets := fun o => if o = ov then some (some w)
            else st.liveWidgets o,
          pooled := fun o => if o = ov then some p.2.reverse
            else st.pooled o })
    | none =>
      (none,
        { st with pooled := fun o => if o = ov then some p.2.reverse
            else st.pooled o })
  | none => (none, st)

/-- `UTLDUIManager::CreateOrReuse` (lines 165-219).  `widgetClassValid`
is `Cfg.WidgetClass != nullptr`, `hasWorld` is `GetWorldSafe() !=
nullptr`, and `freshWidget` is what `CreateWidget` would return (`none`
= creation failed). -/
def CreateOrReuse (st : UIState) (ov : ETLDUIOverlay)
    (widgetClassValid : Bool) (hasWorld : Bool) (freshWidget : Option Widget) :
    Option Widget × UIState :=
  match liveGet st ov with
  | some w => (some w, st)
  | none =>
    match poolTake st ov with
    | (some w, st') => (some w, st')
    | (none, st') =>
      if widgetClassValid = false then (none, st')
      else if hasWorld = false then (none, st')
      else
        match freshWidget with
        | some w =>
          (some w,
            { st' with
                liveWidgets := fun o => if o = ov then some (some w)
                  else st'.liveWidgets o })
        | none => (none, st')

/-- `UTLDUIManager::ReturnToPoolOrDiscard` (lines 297-316). -/
def ReturnToPoolOrDiscard (st : UIState) (ov : ETLDUIOverlay)
    (widget : Option Widget) (bKeepInPool : Bool) : UIState :=
  match widget with
  | none => st
  | some w =>
    let st1 : UIState :=
      { st with liveWidgets := fun o => if o = ov then none
          else st.liveWidgets o }
    if bKeepInPool then
      { st1 with
          pooled := fun o => if o = ov then
              some (((st.pooled ov).getD []) ++ [some w])
            else st.pooled o }
    else st1

/-- `FMath::Clamp(X, Min, Max)`: `X < Min ? Min : X < Max ? X : Max`. -/
def FMathClamp (x lo hi : ℚ) : ℚ :=
  if x < lo then lo else if x < hi then x else hi

/-- `UTLDUIManager::OnChannelTick_UI` (lines 722-732): the event tag and
the `Progress01` field of the payload sent via `HUD_SendEvent`. -/
def OnChannelTick_UI (elapsed total : ℚ) : String × ℚ :=
  ("UI.HUD.Channel.Progress", if total > 0 then FMathClamp (elapsed / total) 0 1 else 0)

end TLDUI

namespace TLDAudio

/-- A `UAudioComponent` as the manager's bookkeeping sees it: the sound
set on it and whether it is playing. -/
structure AudioComp where
  sound : Option Nat
  playing : Bool
deriving DecidableEq, Repr

/-- `FadeIn(FadeTime, Vol)` starts the component playing. -/
def fadeIn (c : AudioComp) : AudioComp := { c with playing := true }

/-- `FadeOut(FadeTime, 0.f)` stops the component. -/
def fadeOut (c : AudioComp) : AudioComp := { c with playing := false }

/-- `SetSound(Track)`. -/
def setSound (c : AudioComp) (t : Nat) : AudioComp := { c with sound := some t }

/-- A fresh, registered, not-yet-playing `UAudioComponent`
(`NewObject<UAudioComponent>` with `bAutoActivate = false`). -/
def freshComp : AudioComp := ⟨none, false⟩

/-- Music-related state of `UTLDAudioManager`.  `σ` is the `EAudioState`
enum (declared in the header, not in src/; the code only compares its
values for equality).  Gameplay tags are modelled by strings, sounds by
identifiers, and the catalog / `MusicByState` maps by functions. -/
structure AudioMgrState (σ : Type) where
  hasCatalog : Bool
  musicByTag : String → Option Nat
  currentMusicTag : String
  activeMusic : Option AudioComp
  inactiveMusic : Option AudioComp
  musicAC : Option AudioComp
  currentState : σ
  musicByState : σ → Option Nat

/-- `UTLDAudioManager::ResolveMusicByTag` (lines 19-33). -/
def ResolveMusicByTag {σ : Type} (st : AudioMgrState σ) (tag : String) :
    Option Nat :=
  if st.hasCatalog then st.musicByTag tag else none

/-- `UTLDAudioManager::EnsureMusicComponents` (lines 420-439). -/
def EnsureMusicComponents {σ : Type} (st : AudioMgrState σ) :
    AudioMgrState σ :=
  { st with
      activeMusic := some (st.activeMusic.getD freshComp)
      inactiveMusic := some (st.inactiveMusic.getD freshComp) }

/-- `UTLDAudioManager::CrossfadeTo` (lines 441-464): fade out the active
component, fade the new track in on the inactive one, swap roles. -/
def CrossfadeTo {σ : Type} (st : AudioMgrState σ) (track : Nat) :
    AudioMgrState σ :=
  let st1 := EnsureMusicComponents st
  let old := st1.activeMusic.getD freshComp
  let nw := st1.inactiveMusic.getD freshComp
  { st1 with
      activeMusic := some (fadeIn (setSound nw track))
      inactiveMusic := some (if old.playing then fadeOut old else old) }

/-- `UTLDAudioManager::PlayMusicByTag` (lines 80-105). -/
def PlayMusicByTag {σ : Type} (st : AudioMgrState σ) (tag : String)
    (_fadeTime : ℚ) : AudioMgrState σ :=
  if tag = st.currentMusicTag then st
  else
    match ResolveMusicByTag st tag with
    | none => st
    | some track =>
      let st1 := EnsureMusicComponents st
      let a := st1.activeMusic.getD freshComp
      let i := st1.inactiveMusic.getD freshComp
      if a.playing = false ∧ i.playing = false then
        { st1 with
            activeMusic := some (fadeIn (setSound a track))
            currentMusicTag := tag }
      else
        { CrossfadeTo st1 track with currentMusicTag := tag }

/-- `UTLDAudioManager::EnsureMusicComponent` (lines 245-260). -/
def EnsureMusicComponent {σ : Type} (st : AudioMgrState σ) :
    AudioMgrState σ :=
  { st with musicAC := some (st.musicAC.getD freshComp) }

/-- `UTLDAudioManager::PlayMusicState` (lines 318-342). -/
def PlayMusicState {σ : Type} [DecidableEq σ] (st : AudioMgrState σ)
    (newState : σ) (_fadeTime : ℚ) : AudioMgrState σ :=
  if st.currentState = newState then st
  else
    let st1 := EnsureMusicComponent { st with currentState := newState }
    match st1.musicByState newState with
    | none => st1
    | some track =>
      let m := st1.musicAC.getD freshComp
      let m1 := if m.playing then fadeOut m else m
      { st1 with musicAC := some (fadeIn (setSound m1 track)) }

/-- SFX pool state: `TArray<UAudioComponent*> SFXPool` (modelled by the
component identifiers) and `int32 PoolIndex`. -/
structure SFXPoolState where
  pool : List Nat
  poolIndex : Nat
deriving DecidableEq, Repr

/-- `UTLDAudioManager::GetPooledSFX` (lines 263-270): nullptr on an empty
pool, else the component at `PoolIndex`, advancing the index with
wrap-around. -/
def GetPooledSFX (s : SFXPoolState) : Option Nat × SFXPoolState :=
  if s.pool.length = 0 then (none, s)
  else (s.pool.get? s.poolIndex,
    { s with poolIndex := (s.poolIndex + 1) % s.pool.length })

/-- The results of `n` consecutive `GetPooledSFX` calls. -/
def runSFX : Nat → SFXPoolState → List (Option Nat) × SFXPoolState
  | 0, s => ([], s)
  | n + 1, s =>
    let p := GetPooledSFX s
    let r := runSFX n p.2
    (p.1 :: r.1, r.2)

end TLDAudio

namespace TLDCine

/-- `FTLDCinematicEntry` (TLDCinematicConfig.h): a named soft reference
to a level sequence.  `pathValid` is `Sequence.ToSoftObjectPath().IsValid()`
and `sequence` is what `Sequence.LoadSynchronous()` would return
(sequences are modelled by identifiers; `none` = load failed). -/
structure FTLDCinematicEntry where
  cinematicName : String
  pathValid : Bool
  sequence : Option Nat
deriving DecidableEq, Repr

/-- `UTLDCinematicConfig` (TLDCinematicConfig.h). -/
structure UTLDCinematicConfig where
  cinematics : List FTLDCinematicEntry
deriving DecidableEq, Repr

/-- `UTLDCinematicConfig::GetSequenceByName` (TLDCinematicConfig.cpp
lines 4-14): return `LoadSynchronous()` of the first entry whose name
matches and whose soft path is valid; null if there is none. -/
def GetSequenceByName (cfg : UTLDCinematicConfig) (name : String) :
    Option Nat :=
  match cfg.cinematics.find?
      (fun e => decide (e.cinematicName = name) && e.pathValid) with
  | some e => e.sequence
  | none => none

/-- The project settings' `CinematicConfigAsset` soft pointer:
`pathValid` is `¬IsNull()` and `loaded` the `LoadSynchronous()` result. -/
structure SoftCineConfig where
  pathValid : Bool
  loaded : Option UTLDCinematicConfig
deriving DecidableEq, Repr

/-- `UTLDProjectSettings::Get()` as the cinematic manager sees it
(`none` = settings unavailable). -/
structure ProjectSettingsEnv where
  settings : Option SoftCineConfig
deriving DecidableEq, Repr

/-- The config the manager would end up with: settings present, soft
path set, and the asset loads. -/
def configLoaded (env : ProjectSettingsEnv) : Option UTLDCinematicConfig :=
  match env.settings with
  | none => none
  | some sp => if sp.pathValid then sp.loaded else none

/-- `UTLDCinematicManager` playback state. -/
structure CineMgrState where
  pendingSequence : Option Nat
  bPendingPause : Bool
  bPendingSkippable : Bool
  pendingPostDelay : ℚ
  bIsPlaying : Bool
  bAllowSkip : Bool
  activePlayer : Option Nat
  activeActor : Option Nat
  paused : Bool
deriving DecidableEq, Repr

/-- `UTLDCinematicManager::ApplyPause` (lines 203-221): pause via the
player controller when world and controller exist. -/
def ApplyPause (st : CineMgrState) (b : Bool) (world hasPC : Bool) :
    CineMgrState :=
  if world && hasPC then { st with paused := b } else st

/-- `UTLDCinematicManager::StartSequence` (lines 102-144).  `world` is
`GetWorld() != nullptr`, `createResult` is what
`ULevelSequencePlayer::CreateLevelSequencePlayer` would produce (`none`
= player or actor creation failed). -/
def StartSequence (st : CineMgrState) (world : Bool)
    (createResult : Option (Nat × Nat)) (hasPC : Bool) : CineMgrState :=
  if st.pendingSequence = none ∨ world = false then
    { st with bIsPlaying := false }
  else
    let st1 := { st with activePlayer := none, activeActor := none }
    match createResult with
    | none => { st1 with bIsPlaying := false }
    | some pa =>
      let st2 := { st1 with
          activePlayer := some pa.1
          activeActor := some pa.2 }
      let st3 := ApplyPause st2 st2.bPendingPause world hasPC
      { st3 with bAllowSkip := st2.bPendingSkippable }

/-- `UTLDCinematicManager::PlaySequence` (lines 11-52).  When
`PreDelay > 0` the call to `StartSequence` is deferred on a timer, so
only the immediate effect is shown; otherwise `StartSequence` runs
inline. -/
def PlaySequence (st : CineMgrState) (world : Bool) (seq : Option Nat)
    (bPauseGame bSkippable : Bool) (preDelay postDelay : ℚ)
    (createResult : Option (Nat × Nat)) (hasPC : Bool) : CineMgrState :=
  if seq = none ∨ world = false then st
  else if st.bIsPlaying then st
  else
    let st1 := { st with
        pendingSequence := seq
        bPendingPause := bPauseGame
        bPendingSkippable := bSkippable
        pendingPostDelay := max 0 postDelay
        bIsPlaying := true
        bAllowSkip := false }
    if 0 < preDelay then st1
    else StartSequence st1 world createResult hasPC

/-- The post-delay timer callback body of `HandleSequenceFinished`
(lines 162-171), also run inline when there is no post-delay. -/
def PostDelayFinish (st : CineMgrState) (world hasPC : Bool) :
    CineMgrState :=
  let st1 := ApplyPause st false world hasPC
  { st1 with
      activePlayer := none
      activeActor := none
      bIsPlaying := false }

/-- `UTLDCinematicManager::HandleSequenceFinished` (lines 146-180).
With a positive post-delay the cleanup body is deferred on a timer, so
only the immediate effect is shown. -/
def HandleSequenceFinished (st : CineMgrState) (world hasPC : Bool) :
    CineMgrState :=
  if world = false then { st with bIsPlaying := false }
  else
    let st1 := { st with bAllowSkip := false }
    if 0 < st1.pendingPostDelay then st1
    else PostDelayFinish st1 world hasPC

/-- `UTLDCinematicManager::SkipCurrentCinematic` (lines 182-201). -/
def SkipCurrentCinematic (st : CineMgrState) (world hasPC : Bool) :
    CineMgrState :=
  if st.bIsPlaying = false ∨ st.bAllowSkip = false ∨
      st.activePlayer = none then st
  else HandleSequenceFinished st world hasPC

/-- The C10 invariant: skipping is only ever allowed while playing. -/
def SkipInv (st : CineMgrState) : Prop :=
  st.bAllowSkip = true → st.bIsPlaying = true

/-- `UTLDCinematicManager::PlayCinematicByName` (lines 54-100): the
returned boolean and the resulting playback state. -/
def PlayCinematicByName (env : ProjectSettingsEnv) (st : CineMgrState)
    (name : String) (bPauseGame bSkippable : Bool)
    (preDelay postDelay : ℚ) (world : Bool)
    (createResult : Option (Nat × Nat)) (hasPC : Bool) :
    Bool × CineMgrState :=
  if name = "" then (false, st)
  else
    match env.settings with
    | none => (false, st)
    | some sp =>
      if sp.pathValid = false then (false, st)
      else
        match sp.loaded with
        | none => (false, st)
        | some cfg =>
          match GetSequenceByName cfg name with
          | none => (false, st)
          | some seq =>
            (true, PlaySequence st world (some seq) bPauseGame bSkippable
              preDelay postDelay createResult hasPC)

end TLDCine

namespace TLDStream

theorem ApplyVisibility_none (rec : FTLDChunkRecord)
    (find : Option StreamingLevel) (b : Bool)
    (h : effStreaming rec find = none) :
    ApplyVisibility rec find b = ({ rec with streaming := none }, []) := by
  unfold ApplyVisibility
  rw [h]

theorem ApplyVisibility_notLoaded (rec : FTLDChunkRecord)
    (find : Option StreamingLevel) (b : Bool) (s : StreamingLevel)
    (h : effStreaming rec find = some s) (hl : s.isLevelLoaded = false) :
    ApplyVisibility rec find b =
      ({ rec with streaming := some s, state := .Loading },
        [.setShouldBeLoaded true, .setShouldBeVisible false]) := by
  unfold ApplyVisibility
  rw [h]
  simp [hl]

theorem ApplyVisibility_loaded (rec : FTLDChunkRecord)
    (find : Option StreamingLevel) (b : Bool) (s : StreamingLevel)
    (h : effStreaming rec find = some s) (hl : s.isLevelLoaded = true) :
    ApplyVisibility rec find b =
      ({ rec with
          streaming := some s
          state := if b then .Visible else .LoadedHidden
          warmUpSeconds := 0 },
        [.setShouldBeVisible b]) := by
  unfold ApplyVisibility
  rw [h]
  simp [hl]

/-- C1: every tracked chunk record's state is one of the four enum values
(immediate from the type `ETLDChunkState`), and per-frame `Tick`
transitions advance along the chain Unloaded → Loading → LoadedHidden →
Visible: a `Loading` record whose engine streaming object reports loaded
moves to at least `LoadedHidden`, and a `LoadedHidden` record whose
warm-up timer, decremented by the frame delta, reaches zero or below
becomes `Visible`.  The hypothesis `hcons` states that the engine still
reports a `LoadedHidden` chunk's level as loaded, which is how the record
entered that state. -/
theorem Tick_state_chain (rec : FTLDChunkRecord)
    (find : Option StreamingLevel) (dt : ℚ)
    (hcons : rec.state = .LoadedHidden → ∀ s,
      effStreaming rec find = some s → s.isLevelLoaded = true) :
    chainIdx rec.state ≤ chainIdx (Tick rec find dt).1.state ∧
    (rec.state = .Loading → streamingLoaded rec.streaming = true →
      (Tick rec find dt).1.state = .LoadedHidden ∨
      (Tick rec find dt).1.state = .Visible) ∧
    (rec.state = .LoadedHidden → 0 < rec.warmUpSeconds →
      rec.warmUpSeconds - dt ≤ 0 → (effStreaming rec find).isSome →
      (Tick rec find dt).1.state = .Visible) := by
  cases hst : rec.state with
  | Unloaded =>
    simp [Tick, hst, chainIdx]
  | Loading =>
    cases hstreaming : rec.streaming with
    | none =>
      simp [Tick, hst, hstreaming, streamingLoaded, chainIdx]
    | some s =>
      cases hsl : s.isLevelLoaded with
      | false =>
        simp [Tick, hst, hstreaming, hsl, streamingLoaded, chainIdx]
      | true =>
        by_cases hw : 0 < rec.warmUpSeconds
        · by_cases hw2 : rec.warmUpSeconds - dt ≤ 0
          · simp [Tick, hst, hstreaming, hsl, hw, hw2, streamingLoaded,
              ApplyVisibility, effStreaming, chainIdx]
          · simp [Tick, hst, hstreaming, hsl, hw, hw2, streamingLoaded, chainIdx]
        · simp [Tick, hst, hstreaming, hsl, hw, streamingLoaded, chainIdx]
  | LoadedHidden =>
    by_cases hw : 0 < rec.warmUpSeconds
    · by_cases hw2 : rec.warmUpSeconds - dt ≤ 0
      · cases heff : effStreaming rec find with
        | none =>
          have hstreaming : rec.streaming = none := by
            unfold effStreaming at heff
            cases h : rec.streaming with
            | none => rfl
            | some s => rw [h] at heff; exact absurd heff (by simp)
          have hfind : find = none := by
            unfold effStreaming at heff
            rw [hstreaming] at heff
            exact heff
          simp [Tick, hst, hstreaming, hfind, hw, hw2, streamingLoaded,
            ApplyVisibility, effStreaming, chainIdx]
        | some s =>
          have hsl : s.isLevelLoaded = true := hcons hst s heff
          cases hstreaming : rec.streaming with
          | none =>
            have hfind : find = some s := by
              unfold effStreaming at heff
              rw [hstreaming] at heff
              exact heff
            simp [Tick, hst, hstreaming, hfind, hsl, hw, hw2, streamingLoaded,
              ApplyVisibility, effStreaming, chainIdx]
          | some s' =>
            have hs' : s' = s := by
              unfold effStreaming at heff
              rw [hstreaming] at heff
              exact Option.some.inj heff
            subst hs'
            simp [Tick, hst, hstreaming, hsl, hw, hw2, streamingLoaded,
              ApplyVisibility, effStreaming, chainIdx]
      · simp [Tick, hst, hw, hw2, chainIdx]
    · simp [Tick, hst, hw, chainIdx]
  | Visible =>
    simp [Tick, hst, chainIdx]

/-- C1 witness: a concrete `LoadedHidden` record whose warm-up expires
this frame becomes `Visible`. -/
theorem Tick_state_chain_witness :
    (Tick ⟨"Forest", .LoadedHidden, 1, some ⟨true, false⟩⟩ none 1).1.state
      = .Visible := by
  refine (Tick_state_chain ⟨"Forest", .LoadedHidden, 1, some ⟨true, false⟩⟩
    none 1 ?_).2.2 rfl ?_ ?_ ?_
  · intro _ s hs
    simp [effStreaming] at hs
    simp [← hs]
  · simp
  · simp
  · simp [effStreaming]

/-- C2: load is ordered before show.  (a) A request to make a chunk
visible (`ApplyVisibility(Rec, true)`) whose streaming object exists but
is not loaded issues `SetShouldBeLoaded(true)` with
`SetShouldBeVisible(false)` and records state `Loading`.  (b) `ApplyLoad`
on an unloaded level likewise keeps visibility off and records `Loading`,
unless visibility was requested with warm-up already elapsed.  (c) From
state `Loading`, per-frame `Tick` issues no engine request and keeps the
record in `Loading` until the engine reports the level loaded. -/
theorem load_before_show :
    (∀ (rec : FTLDChunkRecord) (find : Option StreamingLevel)
        (s : StreamingLevel),
      effStreaming rec find = some s → s.isLevelLoaded = false →
      (ApplyVisibility rec find true).2 =
        [.setShouldBeLoaded true, .setShouldBeVisible false] ∧
      (ApplyVisibility rec find true).1.state = .Loading) ∧
    (∀ (rec : FTLDChunkRecord) (find : Option StreamingLevel)
        (s : StreamingLevel) (b : Bool) (w : ℚ),
      effStreaming rec find = some s → s.isLevelLoaded = false →
      ¬(b = true ∧ w ≤ 0) →
      (ApplyLoad rec find b w).2 =
        [.setShouldBeLoaded true, .setShouldBeVisible false] ∧
      (ApplyLoad rec find b w).1.state = .Loading) ∧
    (∀ (rec : FTLDChunkRecord) (find : Option StreamingLevel) (dt : ℚ),
      rec.state = .Loading → streamingLoaded rec.streaming = false →
      Tick rec find dt = (rec, [])) := by
  refine ⟨?_, ?_, ?_⟩
  · intro rec find s heff hsl
    rw [ApplyVisibility_notLoaded rec find true s heff hsl]
    exact ⟨rfl, rfl⟩
  · intro rec find s b w heff hsl hnb
    have hb : (b && decide (w ≤ 0)) = false := by
      cases b with
      | false => rfl
      | true => simpa using fun h => hnb ⟨rfl, h⟩
    unfold ApplyLoad
    rw [heff]
    simp [hsl, hb]
  · intro rec find dt hst hld
    simp [Tick, hst, hld]

/-- C2 witness: a concrete visible-request on an existing unloaded level. -/
theorem load_before_show_witness :
    (ApplyVisibility ⟨"Cave", .Unloaded, 0, some ⟨false, false⟩⟩ none true).2 =
      [.setShouldBeLoaded true, .setShouldBeVisible false] ∧
    (ApplyVisibility ⟨"Cave", .Unloaded, 0, some ⟨false, false⟩⟩
      none true).1.state = .Loading :=
  load_before_show.1 ⟨"Cave", .Unloaded, 0, some ⟨false, false⟩⟩ none
    ⟨false, false⟩ (by simp [effStreaming]) rfl

/-- C3: unloading a chunk whose streaming object exists hides it before
unloading it — the issued request list is exactly
`[SetShouldBeVisible false, SetShouldBeLoaded false]` — and afterwards
the record's state is `Unloaded` with `WarmUpSeconds = 0`; the same holds
through `UnloadChunkAsync` for any non-empty level name, with the updated
record stored back in the map. -/
theorem hide_before_unload :
    (∀ (rec : FTLDChunkRecord) (find : Option StreamingLevel)
        (s : StreamingLevel),
      effStreaming rec find = some s →
      (ApplyUnload rec find).2 =
        [.setShouldBeVisible false, .setShouldBeLoaded false] ∧
      (ApplyUnload rec find).1.state = .Unloaded ∧
      (ApplyUnload rec find).1.warmUpSeconds = 0) ∧
    (∀ (records : ChunkRecords) (name : String)
        (find : Option StreamingLevel) (s : StreamingLevel),
      name ≠ "" →
      effStreaming (GetOrAddRecord records name find) find = some s →
      (UnloadChunkAsync records name find).2 =
        [.setShouldBeVisible false, .setShouldBeLoaded false] ∧
      ∃ rec', (UnloadChunkAsync records name find).1 name = some rec' ∧
        rec'.state = .Unloaded ∧ rec'.warmUpSeconds = 0) := by
  have happly : ∀ (rec : FTLDChunkRecord) (find : Option StreamingLevel)
      (s : StreamingLevel), effStreaming rec find = some s →
      (ApplyUnload rec find).2 =
        [.setShouldBeVisible false, .setShouldBeLoaded false] ∧
      (ApplyUnload rec find).1.state = .Unloaded ∧
      (ApplyUnload rec find).1.warmUpSeconds = 0 := by
    intro rec find s heff
    unfold ApplyUnload
    rw [heff]
    exact ⟨rfl, rfl, rfl⟩
  refine ⟨happly, ?_⟩
  intro records name find s hname heff
  obtain ⟨h1, h2, h3⟩ := happly (GetOrAddRecord records name find) find s heff
  unfold UnloadChunkAsync
  simp only [hname, if_false, if_neg hname]
  exact ⟨h1, ⟨(ApplyUnload (GetOrAddRecord records name find) find).1,
    by simp [storeRecord], h2, h3⟩⟩

/-- C3 witness: unloading a concrete visible chunk with an existing
streaming object. -/
theorem hide_before_unload_witness :
    (ApplyUnload ⟨"Cave", .Visible, 0, some ⟨true, true⟩⟩ none).2 =
      [.setShouldBeVisible false, .setShouldBeLoaded false] ∧
    (ApplyUnload ⟨"Cave", .Visible, 0, some ⟨true, true⟩⟩ none).1.state
      = .Unloaded ∧
    (ApplyUnload ⟨"Cave", .Visible, 0, some ⟨true, true⟩⟩
      none).1.warmUpSeconds = 0 :=
  hide_before_unload.1 ⟨"Cave", .Visible, 0, some ⟨true, true⟩⟩ none
    ⟨true, true⟩ (by simp [effStreaming])

/-- C4: for a tracked level name, `IsChunkLoaded` is true exactly when the
record's state is `LoadedHidden` or `Visible`, and `IsChunkVisible` is
true exactly when it is `Visible`; for an untracked name both fall back to
the engine streaming level's own `IsLevelLoaded`/`IsLevelVisible`, and
return false when no streaming level of that name exists. -/
theorem chunk_queries_spec :
    (∀ (records : ChunkRecords) (find : Option StreamingLevel)
        (name : String) (rec : FTLDChunkRecord),
      records name = some rec →
      (IsChunkLoaded records find name = true ↔
        rec.state = .LoadedHidden ∨ rec.state = .Visible) ∧
      (IsChunkVisible records find name = true ↔ rec.state = .Visible)) ∧
    (∀ (records : ChunkRecords) (find : Option StreamingLevel)
        (name : String),
      records name = none →
      IsChunkLoaded records find name = streamingLoaded find ∧
      IsChunkVisible records find name = streamingVisible find ∧
      (find = none → IsChunkLoaded records find name = false ∧
        IsChunkVisible records find name = false)) := by
  constructor
  · intro records find name rec hrec
    constructor
    · unfold IsChunkLoaded
      rw [hrec]
      simp
    · unfold IsChunkVisible
      rw [hrec]
      simp
  · intro records find name hrec
    refine ⟨?_, ?_, ?_⟩
    · unfold IsChunkLoaded
      rw [hrec]
      cases find <;> simp [streamingLoaded]
    · unfold IsChunkVisible
      rw [hrec]
      cases find <;> simp [streamingVisible]
    · intro hfind
      subst hfind
      unfold IsChunkLoaded IsChunkVisible
      rw [hrec]
      exact ⟨rfl, rfl⟩

/-- C4 witness: a concrete map tracking one `LoadedHidden` chunk, queried
at the tracked name and at an untracked name with no engine level. -/
theorem chunk_queries_spec_witness :
    (IsChunkLoaded
        (fun n => if n = "Cave" then some ⟨"Cave", .LoadedHidden, 0, none⟩
          else none) none "Cave" = true ↔
      (⟨"Cave", .LoadedHidden, 0, none⟩ : FTLDChunkRecord).state
          = .LoadedHidden ∨
        (⟨"Cave", .LoadedHidden, 0, none⟩ : FTLDChunkRecord).state
          = .Visible) ∧
    IsChunkLoaded
      (fun n => if n = "Cave" then some ⟨"Cave", .LoadedHidden, 0, none⟩
        else none) none "Forest" = false :=
  ⟨(chunk_queries_spec.1
      (fun n => if n = "Cave" then some ⟨"Cave", .LoadedHidden, 0, none⟩
        else none) none "Cave" ⟨"Cave", .LoadedHidden, 0, none⟩
      (by simp)).1,
    ((chunk_queries_spec.2
      (fun n => if n = "Cave" then some ⟨"Cave", .LoadedHidden, 0, none⟩
        else none) none "Forest" (by simp)).2.2 rfl).1⟩

end TLDStream

namespace TLDUI

theorem poolTake_hit (st : UIState) (ov : ETLDUIOverlay)
    (pl rest : List (Option Widget)) (w : Widget)
    (hpool : st.pooled ov = some pl)
    (hscan : scanPoolRev pl.reverse = (some w, rest)) :
    poolTake st ov = (some w,
      { liveWidgets := fun o => if o = ov then some (some w)
          else st.liveWidgets o,
        pooled := fun o => if o = ov then some rest.reverse
          else st.pooled o }) := by
  unfold poolTake
  rw [hpool]
  simp only [hscan]

theorem poolTake_noEntry (st : UIState) (ov : ETLDUIOverlay)
    (hpool : st.pooled ov = none) : poolTake st ov = (none, st) := by
  unfold poolTake
  rw [hpool]

theorem poolTake_allDead (st : UIState) (ov : ETLDUIOverlay)
    (pl : List (Option Widget)) (hpool : st.pooled ov = some pl)
    (hscan : (scanPoolRev pl.reverse).1 = none) :
    poolTake st ov = (none,
      { st with pooled := fun o =>
          if o = ov then some (scanPoolRev pl.reverse).2.reverse
          else st.pooled o }) := by
  unfold poolTake
  rw [hpool]
  simp only []
  cases hs : scanPoolRev pl.reverse with
  | mk fst snd =>
    rw [hs] at hscan
    simp at hscan
    subst hscan
    simp

theorem scanPoolRev_some (l : List (Option Widget)) (w : Widget)
    (t : List (Option Widget)) (h : scanPoolRev l = (some w, t)) :
    ∃ d, l = d ++ some w :: t ∧ ∀ x ∈ d, x = none := by
  induction l generalizing t with
  | nil => simp [scanPoolRev] at h
  | cons hd tl ih =>
    cases hd with
    | none =>
      obtain ⟨d, hd1, hd2⟩ := ih t (by simpa [scanPoolRev] using h)
      exact ⟨none :: d, by simp [hd1], by simpa using hd2⟩
    | some w' =>
      unfold scanPoolRev at h
      have hw : some w' = some w := congrArg Prod.fst h
      have ht : tl = t := congrArg Prod.snd h
      cases Option.some.inj hw
      exact ⟨[], by simp [ht], by simp⟩

/-- C5: an overlay's widget is tracked as live or pooled but never both.
(a) `CreateOrReuse` returns the existing live widget, leaving the state
unchanged; (b) otherwise it takes a widget out of the overlay's pool
(dropping only dead weak pointers) and registers it live — and if the
pool had no duplicates the taken widget is no longer pooled; (c)
otherwise it creates a fresh widget and registers it live; (d)
`ReturnToPoolOrDiscard` removes the widget from `LiveWidgets` and appends
it to the overlay's pool exactly when `bKeepInPool` is true. -/
theorem widget_live_pool_exclusive :
    (∀ (st : UIState) (ov : ETLDUIOverlay) (c h : Bool)
        (f : Option Widget) (w : Widget),
      liveGet st ov = some w → CreateOrReuse st ov c h f = (some w, st)) ∧
    (∀ (st : UIState) (ov : ETLDUIOverlay) (c h : Bool) (f : Option Widget)
        (pl rest : List (Option Widget)) (w : Widget),
      liveGet st ov = none → st.pooled ov = some pl →
      scanPoolRev pl.reverse = (some w, rest) →
      (CreateOrReuse st ov c h f).1 = some w ∧
      liveGet (CreateOrReuse st ov c h f).2 ov = some w ∧
      (CreateOrReuse st ov c h f).2.pooled ov = some rest.reverse ∧
      (∃ dead, pl = rest.reverse ++ some w :: dead ∧ ∀ x ∈ dead, x = none) ∧
      (pl.Nodup → some w ∉ rest.reverse)) ∧
    (∀ (st : UIState) (ov : ETLDUIOverlay) (w : Widget),
      liveGet st ov = none → poolAlive st ov = none →
      (CreateOrReuse st ov true true (some w)).1 = some w ∧
      liveGet (CreateOrReuse st ov true true (some w)).2 ov = some w) ∧
    (∀ (st : UIState) (ov : ETLDUIOverlay) (w : Widget) (keep : Bool),
      liveGet (ReturnToPoolOrDiscard st ov (some w) keep) ov = none ∧
      (keep = true →
        (ReturnToPoolOrDiscard st ov (some w) keep).pooled ov =
          some (((st.pooled ov).getD []) ++ [some w])) ∧
      (keep = false →
        (ReturnToPoolOrDiscard st ov (some w) keep).pooled = st.pooled)) := by
  refine ⟨?_, ?_, ?_, ?_⟩
  · intro st ov c h f w hlive
    unfold CreateOrReuse
    rw [hlive]
  · intro st ov c h f pl rest w hlive hpool hscan
    obtain ⟨d, hdecomp, hdead⟩ := scanPoolRev_some pl.reverse w rest hscan
    have hpl : pl = rest.reverse ++ some w :: d.reverse := by
      have := congrArg List.reverse hdecomp
      simpa [List.reverse_append] using this
    have hpt := poolTake_hit st ov pl rest w hpool hscan
    refine ⟨?_, ?_, ?_, ⟨d.reverse, hpl, by simpa using hdead⟩, ?_⟩
    · unfold CreateOrReuse
      rw [hlive, hpt]
    · unfold CreateOrReuse
      rw [hlive, hpt]
      simp [liveGet]
    · unfold CreateOrReuse
      rw [hlive, hpt]
      simp
    · intro hnd
      rw [hpl] at hnd
      have hdisj := List.disjoint_of_nodup_append hnd
      exact fun hmem => hdisj hmem (List.mem_cons_self _ _)
  · intro st ov w hlive hpa
    unfold poolAlive at hpa
    cases hpool : st.pooled ov with
    | none =>
      have hpt := poolTake_noEntry st ov hpool
      unfold CreateOrReuse
      rw [hlive, hpt]
      exact ⟨rfl, by simp [liveGet]⟩
    | some pl =>
      rw [hpool] at hpa
      have hpt := poolTake_allDead st ov pl hpool hpa
      unfold CreateOrReuse
      rw [hlive, hpt]
      exact ⟨rfl, by simp [liveGet]⟩
  · intro st ov w keep
    unfold ReturnToPoolOrDiscard
    cases keep with
    | true => exact ⟨by simp [liveGet], fun _ => by simp, by simp⟩
    | false => exact ⟨by simp [liveGet], by simp, fun _ => rfl⟩

/-- C5 witness: a pool with one dead and one live widget; the live one is
taken out and registered live, then returned to the pool. -/
theorem widget_live_pool_exclusive_witness :
    (CreateOrReuse ⟨fun _ => none, fun ov =>
        if ov = .HUD then some [some 7, none] else none⟩
      .HUD true true none).1 = some 7 ∧
    liveGet (ReturnToPoolOrDiscard ⟨fun _ => none, fun _ => none⟩
      .Pause (some 3) true) .Pause = none := by
  constructor
  · exact (widget_live_pool_exclusive.2.1
      ⟨fun _ => none, fun ov => if ov = .HUD then some [some 7, none] else none⟩
      .HUD true true none [some 7, none] [] 7 rfl (by simp)
      (by simp [scanPoolRev])).1
  · exact (widget_live_pool_exclusive.2.2.2
      ⟨fun _ => none, fun _ => none⟩ .Pause 3 true).1

/-- C8: the progress value sent to the HUD in the
"UI.HUD.Channel.Progress" payload equals E/T clamped to [0,1] when
T > 0 and equals 0 when T ≤ 0, so it always lies in [0,1]. -/
theorem channel_progress_clamped (elapsed total : ℚ) :
    (0 < total →
      (OnChannelTick_UI elapsed total).2 = max 0 (min 1 (elapsed / total))) ∧
    (total ≤ 0 → (OnChannelTick_UI elapsed total).2 = 0) ∧
    0 ≤ (OnChannelTick_UI elapsed total).2 ∧
    (OnChannelTick_UI elapsed total).2 ≤ 1 ∧
    (OnChannelTick_UI elapsed total).1 = "UI.HUD.Channel.Progress" := by
  have hclamp : ∀ x : ℚ, FMathClamp x 0 1 = max 0 (min 1 x) := by
    intro x
    unfold FMathClamp
    rcases lt_trichotomy x 0 with h0 | h0 | h0
    · rw [if_pos h0, min_eq_right (h0.le.trans zero_le_one),
        max_eq_left h0.le]
    · subst h0
      norm_num
    · rw [if_neg (not_lt.mpr h0.le)]
      by_cases h1 : x < 1
      · rw [if_pos h1, min_eq_right h1.le, max_eq_right h0.le]
      · rw [if_neg h1, min_eq_left (not_lt.mp h1), max_eq_right zero_le_one]
  refine ⟨?_, ?_, ?_, ?_, rfl⟩
  · intro ht
    unfold OnChannelTick_UI
    simp [ht, hclamp]
  · intro ht
    unfold OnChannelTick_UI
    simp [not_lt.mpr ht]
  · unfold OnChannelTick_UI
    by_cases ht : 0 < total
    · simp only [ht, if_pos, hclamp]
      exact le_max_left 0 _
    · simp [ht]
  · unfold OnChannelTick_UI
    by_cases ht : 0 < total
    · simp only [ht, if_pos, hclamp]
      exact max_le zero_le_one (min_le_left 1 _)
    · simp [ht]

/-- C8 witness: a tick halfway through a 2-second channel reports
progress 1/2; a tick with non-positive total reports 0. -/
theorem channel_progress_clamped_witness :
    (OnChannelTick_UI 1 2).2 = max 0 (min 1 ((1 : ℚ) / 2)) ∧
    (OnChannelTick_UI 1 0).2 = 0 :=
  ⟨(channel_progress_clamped 1 2).1 (by norm_num),
    (channel_progress_clamped 1 0).2.1 le_rfl⟩

end TLDUI

namespace TLDAudio

theorem PlayMusicByTag_currentTag {σ : Type} (st : AudioMgrState σ)
    (tag : String) (f : ℚ) (h : tag ≠ st.currentMusicTag) :
    PlayMusicByTag st tag f = st ∨
    (PlayMusicByTag st tag f).currentMusicTag = tag := by
  unfold PlayMusicByTag
  rw [if_neg h]
  cases hres : ResolveMusicByTag st tag with
  | none => exact Or.inl rfl
  | some track =>
    right
    split
    · rename_i heq
      exact Option.noConfusion heq
    · dsimp only
      split <;> rfl

/-- C7: switching music to the current tag or state is a no-op:
`PlayMusicByTag` returns with the state unchanged when the tag equals
`CurrentMusicTag` (hence two consecutive calls with the same tag behave
as one), and `PlayMusicState` returns unchanged when the state equals
`CurrentState`. -/
theorem music_same_tag_noop :
    (∀ (σ : Type) (st : AudioMgrState σ) (tag : String) (f : ℚ),
      tag = st.currentMusicTag → PlayMusicByTag st tag f = st) ∧
    (∀ (σ : Type) (st : AudioMgrState σ) (tag : String) (f : ℚ),
      PlayMusicByTag (PlayMusicByTag st tag f) tag f =
        PlayMusicByTag st tag f) ∧
    (∀ (σ : Type) [DecidableEq σ] (st : AudioMgrState σ) (s : σ)
        (f : ℚ),
      st.currentState = s → PlayMusicState st s f = st) := by
  have htag : ∀ (σ : Type) (st : AudioMgrState σ) (tag : String) (f : ℚ),
      tag = st.currentMusicTag → PlayMusicByTag st tag f = st := by
    intro σ st tag f h
    unfold PlayMusicByTag
    rw [if_pos h]
  refine ⟨htag, ?_, ?_⟩
  · intro σ st tag f
    by_cases h : tag = st.currentMusicTag
    · rw [htag σ st tag f h, htag σ st tag f h]
    · rcases PlayMusicByTag_currentTag st tag f h with heq | hcur
      · rw [heq, heq]
      · exact htag σ _ tag f hcur.symm
  · intro σ _ st s f h
    unfold PlayMusicState
    rw [if_pos h]

/-- C7 witness: replaying the current tag and the current state on a
concrete manager state changes nothing. -/
theorem music_same_tag_noop_witness :
    PlayMusicByTag
      (⟨true, fun _ => some 1, "Music.Combat", none, none, none, 0,
        fun _ => none⟩ : AudioMgrState Nat) "Music.Combat" 1 =
      ⟨true, fun _ => some 1, "Music.Combat", none, none, none, 0,
        fun _ => none⟩ ∧
    PlayMusicState
      (⟨true, fun _ => some 1, "Music.Combat", none, none, none, 0,
        fun _ => none⟩ : AudioMgrState Nat) 0 1 =
      ⟨true, fun _ => some 1, "Music.Combat", none, none, none, 0,
        fun _ => none⟩ :=
  ⟨music_same_tag_noop.1 Nat _ "Music.Combat" 1 rfl,
    music_same_tag_noop.2.2 Nat _ 0 1 rfl⟩

theorem runSFX_outputs (n : Nat) (s : SFXPoolState)
    (h : s.poolIndex < s.pool.length) :
    (runSFX n s).1 = (List.range n).map
      (fun k => s.pool.get? ((s.poolIndex + k) % s.pool.length)) ∧
    (runSFX n s).2 =
      { s with poolIndex := (s.poolIndex + n) % s.pool.length } := by
  induction n generalizing s with
  | zero =>
    refine ⟨rfl, ?_⟩
    cases s with
    | mk pool idx =>
      simp only [runSFX]
      simp [Nat.mod_eq_of_lt h]
  | succ n ih =>
    have hlen : s.pool.length ≠ 0 := Nat.not_eq_zero_of_lt h
    have hstep : GetPooledSFX s = (s.pool.get? s.poolIndex,
        { s with poolIndex := (s.poolIndex + 1) % s.pool.length }) := by
      unfold GetPooledSFX
      rw [if_neg hlen]
    have hidx : (s.poolIndex + 1) % s.pool.length < s.pool.length :=
      Nat.mod_lt _ (Nat.pos_of_ne_zero hlen)
    obtain ⟨ih1, ih2⟩ :=
      ih { s with poolIndex := (s.poolIndex + 1) % s.pool.length } hidx
    constructor
    · show (GetPooledSFX s).1 :: (runSFX n (GetPooledSFX s).2).1 = _
      rw [hstep]
      simp only [ih1]
      rw [List.range_succ_eq_map]
      simp only [List.map_cons, List.map_map]
      congr 1
      · rw [Nat.add_zero, Nat.mod_eq_of_lt h]
      · apply List.map_congr_left
        intro k _
        simp only [Function.comp_apply]
        rw [Nat.mod_add_mod]
        congr 2
        omega
    · show (runSFX n (GetPooledSFX s).2).2 = _
      rw [hstep]
      simp only [ih2]
      rw [Nat.mod_add_mod]
      have harith : s.poolIndex + 1 + n = s.poolIndex + (n + 1) := by omega
      rw [harith]

/-- C9: the SFX pool is served round-robin.  `GetPooledSFX` returns
nullptr on an empty pool; otherwise it returns the component at
`PoolIndex` and advances the index by one modulo the pool size; and `N`
consecutive calls on a pool of `N` components return exactly the pool
rotated to start at `PoolIndex` — a permutation of the pool, so each
pooled component is returned exactly once before any repeats. -/
theorem sfx_round_robin :
    (∀ s : SFXPoolState, s.pool = [] → GetPooledSFX s = (none, s)) ∧
    (∀ (s : SFXPoolState), s.poolIndex < s.pool.length →
      (GetPooledSFX s).1 = s.pool.get? s.poolIndex ∧
      (GetPooledSFX s).1.isSome = true ∧
      (GetPooledSFX s).2.poolIndex = (s.poolIndex + 1) % s.pool.length ∧
      (GetPooledSFX s).2.pool = s.pool) ∧
    (∀ (s : SFXPoolState), s.poolIndex < s.pool.length →
      (runSFX s.pool.length s).1 = (s.pool.rotate s.poolIndex).map some ∧
      (runSFX s.pool.length s).1.Perm (s.pool.map some)) := by
  refine ⟨?_, ?_, ?_⟩
  · intro s hpool
    unfold GetPooledSFX
    rw [hpool]
    rfl
  · intro s h
    have hlen : s.pool.length ≠ 0 := Nat.not_eq_zero_of_lt h
    have hstep : GetPooledSFX s = (s.pool.get? s.poolIndex,
        { s with poolIndex := (s.poolIndex + 1) % s.pool.length }) := by
      unfold GetPooledSFX
      rw [if_neg hlen]
    rw [hstep]
    refine ⟨rfl, ?_, rfl, rfl⟩
    rw [List.get?_eq_get h]
    rfl
  · intro s h
    have hout := (runSFX_outputs s.pool.length s h).1
    have hrot : (runSFX s.pool.length s).1 =
        (s.pool.rotate s.poolIndex).map some := by
      rw [hout]
      apply List.ext_get?
      intro k
      by_cases hk : k < s.pool.length
      · have hpos : 0 < s.pool.length :=
          Nat.pos_of_ne_zero (Nat.not_eq_zero_of_lt h)
        have hmod2 : (s.poolIndex + k) % s.pool.length < s.pool.length :=
          Nat.mod_lt _ hpos
        rw [List.get?_map, List.get?_map, List.get?_range hk,
          List.get?_rotate hk, Nat.add_comm k s.poolIndex,
          List.get?_eq_get hmod2]
        simp
      · rw [List.get?_map, List.get?_map]
        rw [List.get?_eq_none.mpr (by simpa using Nat.le_of_not_lt hk),
          List.get?_eq_none.mpr (by simpa using Nat.le_of_not_lt hk)]
        rfl
    exact ⟨hrot, hrot ▸ (List.rotate_perm s.pool s.poolIndex).map some⟩

/-- C9 witness: three consecutive calls on the pool `[10, 20, 30]`
starting at index 1 return 20, 30, 10 — each component exactly once. -/
theorem sfx_round_robin_witness :
    (runSFX 3 ⟨[10, 20, 30], 1⟩).1 =
      (([10, 20, 30] : List Nat).rotate 1).map some :=
  (sfx_round_robin.2.2 ⟨[10, 20, 30], 1⟩ (by simp)).1

end TLDAudio

namespace TLDCine

theorem ApplyPause_bIsPlaying (st : CineMgrState) (b world hasPC : Bool) :
    (ApplyPause st b world hasPC).bIsPlaying = st.bIsPlaying := by
  unfold ApplyPause
  split <;> rfl

theorem StartSequence_skipInv (st : CineMgrState) (world : Bool)
    (create : Option (Nat × Nat)) (hasPC : Bool)
    (hskip : st.bAllowSkip = false) (hplay : st.bIsPlaying = true) :
    SkipInv (StartSequence st world create hasPC) := by
  unfold SkipInv StartSequence
  split
  · intro h
    simp [hskip] at h
  · cases create with
    | none =>
      dsimp only
      intro h
      simp [hskip] at h
    | some pa =>
      dsimp only
      intro _
      rw [ApplyPause_bIsPlaying]
      exact hplay

theorem HandleSequenceFinished_skipInv (st : CineMgrState) (hasPC : Bool) :
    SkipInv (HandleSequenceFinished st true hasPC) := by
  unfold SkipInv HandleSequenceFinished
  simp only [Bool.true_eq_false, if_false]
  split
  · intro h
    simp at h
  · unfold PostDelayFinish ApplyPause
    intro h
    split at h <;> simp at h

/-- C6 counterexample: with a config holding two entries named "Intro" —
the first with a valid soft path whose sequence fails to load, the second
with a valid, loadable sequence — `PlayCinematicByName` returns false
even though the name is non-empty, the config is set and loads, and the
config contains an entry with that name and a valid sequence reference:
the claim's "in every other case it returns true" fails here. -/
theorem play_cinematic_first_match_counterexample :
    (PlayCinematicByName
        ⟨some ⟨true, some ⟨[⟨"Intro", true, none⟩, ⟨"Intro", true, some 7⟩]⟩⟩⟩
        ⟨none, false, false, 0, false, false, none, none, false⟩
        "Intro" false false 0 0 true none true).1 = false ∧
    ¬("Intro" = "") ∧
    configLoaded
        ⟨some ⟨true, some ⟨[⟨"Intro", true, none⟩, ⟨"Intro", true, some 7⟩]⟩⟩⟩
      = some ⟨[⟨"Intro", true, none⟩, ⟨"Intro", true, some 7⟩]⟩ ∧
    ((⟨"Intro", true, some 7⟩ : FTLDCinematicEntry) ∈
        ([⟨"Intro", true, none⟩, ⟨"Intro", true, some 7⟩] :
          List FTLDCinematicEntry) ∧
      (FTLDCinematicEntry.mk "Intro" true (some 7)).cinematicName = "Intro" ∧
      (FTLDCinematicEntry.mk "Intro" true (some 7)).pathValid = true ∧
      (FTLDCinematicEntry.mk "Intro" true (some 7)).sequence.isSome = true) := by
  refine ⟨rfl, by decide, rfl, by simp, rfl, rfl, rfl⟩

/-- C6 (amended): `PlayCinematicByName` returns true iff the name is
non-empty, the project settings and cinematic config resolve and load,
and `GetSequenceByName` resolves the name — i.e. scanning the config in
order, the first entry with a matching name and valid soft path has a
sequence that loads; in that case it hands the resolved sequence to
`PlaySequence`.  (It returns false when the first matching valid-path
entry fails to load, even if a later matching entry would load.) -/
theorem play_cinematic_byname_spec (env : ProjectSettingsEnv)
    (st : CineMgrState) (name : String) (pause skip : Bool)
    (pre post : ℚ) (world : Bool) (create : Option (Nat × Nat))
    (hasPC : Bool) :
    ((PlayCinematicByName env st name pause skip pre post world create
        hasPC).1 = true ↔
      name ≠ "" ∧ ∃ cfg, configLoaded env = some cfg ∧
        (GetSequenceByName cfg name).isSome = true) ∧
    (∀ (cfg : UTLDCinematicConfig) (seq : Nat),
      configLoaded env = some cfg → GetSequenceByName cfg name = some seq →
      name ≠ "" →
      PlayCinematicByName env st name pause skip pre post world create
          hasPC =
        (true, PlaySequence st world (some seq) pause skip pre post create
          hasPC)) := by
  constructor
  · by_cases hname : name = ""
    · simp [PlayCinematicByName, hname]
    · cases hsp : env.settings with
      | none => simp [PlayCinematicByName, configLoaded, hname, hsp]
      | some sp =>
        cases hpv : sp.pathValid with
        | false =>
          simp [PlayCinematicByName, configLoaded, hname, hsp, hpv]
        | true =>
          cases hld : sp.loaded with
          | none =>
            simp [PlayCinematicByName, configLoaded, hname, hsp, hpv, hld]
          | some cfg =>
            cases hseq : GetSequenceByName cfg name with
            | none =>
              simp [PlayCinematicByName, configLoaded, hname, hsp, hpv,
                hld, hseq]
            | some seq =>
              simp [PlayCinematicByName, configLoaded, hname, hsp, hpv,
                hld, hseq]
  · intro cfg seq hcfg hseq hname
    unfold configLoaded at hcfg
    cases hsp : env.settings with
    | none => rw [hsp] at hcfg; exact Option.noConfusion hcfg
    | some sp =>
      rw [hsp] at hcfg
      dsimp only at hcfg
      cases hpv : sp.pathValid with
      | false =>
        rw [hpv] at hcfg
        simp at hcfg
      | true =>
        rw [hpv] at hcfg
        simp at hcfg
        unfold PlayCinematicByName
        rw [if_neg hname, hsp]
        simp [hpv, hcfg, hseq]

/-- C6 amended-claim witness: a concrete setup where the single "Intro"
entry loads, so the call resolves it and hands it to `PlaySequence`. -/
theorem play_cinematic_byname_spec_witness :
    PlayCinematicByName ⟨some ⟨true, some ⟨[⟨"Intro", true, some 7⟩]⟩⟩⟩
        ⟨none, false, false, 0, false, false, none, none, false⟩
        "Intro" false false 0 0 true none true =
      (true, PlaySequence
        ⟨none, false, false, 0, false, false, none, none, false⟩
        true (some 7) false false 0 0 none true) :=
  (play_cinematic_byname_spec ⟨some ⟨true, some ⟨[⟨"Intro", true, some 7⟩]⟩⟩⟩
      ⟨none, false, false, 0, false, false, none, none, false⟩
      "Intro" false false 0 0 true none true).2
    ⟨[⟨"Intro", true, some 7⟩]⟩ 7 rfl rfl (by decide)

/-- C10: at most one cinematic plays at a time — `PlaySequence` while
`bIsPlaying` returns with the state (including all pending-sequence
fields) unchanged; the invariant `bAllowSkip → bIsPlaying` is preserved
by `PlaySequence`, by `StartSequence` as invoked (entered with skipping
disabled while playing), by `HandleSequenceFinished` and its post-delay
callback, and by `SkipCurrentCinematic`; and `SkipCurrentCinematic` is a
no-op unless a skippable sequence is actively playing. -/
theorem cinematic_single_playback :
    (∀ (st : CineMgrState) (world : Bool) (seq : Option Nat)
        (pause skip : Bool) (pre post : ℚ)
        (create : Option (Nat × Nat)) (hasPC : Bool),
      st.bIsPlaying = true →
      PlaySequence st world seq pause skip pre post create hasPC = st) ∧
    (∀ (st : CineMgrState) (world : Bool) (seq : Option Nat)
        (pause skip : Bool) (pre post : ℚ)
        (create : Option (Nat × Nat)) (hasPC : Bool),
      SkipInv st →
      SkipInv (PlaySequence st world seq pause skip pre post create hasPC)) ∧
    (∀ (st : CineMgrState) (world : Bool) (create : Option (Nat × Nat))
        (hasPC : Bool),
      st.bAllowSkip = false → st.bIsPlaying = true →
      SkipInv (StartSequence st world create hasPC)) ∧
    (∀ (st : CineMgrState) (hasPC : Bool),
      SkipInv (HandleSequenceFinished st true hasPC)) ∧
    (∀ (st : CineMgrState) (world hasPC : Bool),
      st.bAllowSkip = false → SkipInv (PostDelayFinish st world hasPC)) ∧
    (∀ (st : CineMgrState) (hasPC : Bool),
      SkipInv st → SkipInv (SkipCurrentCinematic st true hasPC)) ∧
    (∀ (st : CineMgrState) (world hasPC : Bool),
      ¬(st.bIsPlaying = true ∧ st.bAllowSkip = true ∧
        st.activePlayer.isSome = true) →
      SkipCurrentCinematic st world hasPC = st) := by
  refine ⟨?_, ?_, StartSequence_skipInv, HandleSequenceFinished_skipInv,
    ?_, ?_, ?_⟩
  · intro st world seq pause skip pre post create hasPC hplay
    simp [PlaySequence, hplay]
  · intro st world seq pause skip pre post create hasPC hinv
    unfold PlaySequence
    split
    · exact hinv
    · split
      · exact hinv
      · split
        · intro h
          simp at h
        · exact StartSequence_skipInv _ _ _ _ rfl rfl
  · intro st world hasPC hskip
    unfold SkipInv PostDelayFinish ApplyPause
    intro h
    split at h <;> simp [hskip] at h
  · intro st hasPC hinv
    unfold SkipCurrentCinematic
    split
    · exact hinv
    · exact HandleSequenceFinished_skipInv st hasPC
  · intro st world hasPC hno
    unfold SkipCurrentCinematic
    cases hp : st.bIsPlaying with
    | false => simp
    | true =>
      cases hs : st.bAllowSkip with
      | false => simp
      | true =>
        cases ha : st.activePlayer with
        | none => simp
        | some p => exact absurd ⟨hp, hs, by simp [ha]⟩ hno

/-- C10 witness: on a concrete already-playing state, a second
`PlaySequence` request changes nothing, and skipping a non-skippable
state changes nothing. -/
theorem cinematic_single_playback_witness :
    PlaySequence ⟨some 1, false, false, 0, true, false, some 2, some 3,
        false⟩ true (some 9) true true 0 0 none true =
      ⟨some 1, false, false, 0, true, false, some 2, some 3, false⟩ ∧
    SkipCurrentCinematic ⟨some 1, false, false, 0, true, false, some 2,
        some 3, false⟩ true true =
      ⟨some 1, false, false, 0, true, false, some 2, some 3, false⟩ :=
  ⟨cinematic_single_playback.1 _ true (some 9) true true 0 0 none true rfl,
    cinematic_single_playback.2.2.2.2.2.2 _ true true
      (by intro h; exact absurd h.2.1 (by decide))⟩

end TLDCine
